import Mathlib

/-!
Verification of the raft front end: the runtime value model (object.cpp)
and the recursive-descent parser (parser.cpp), embedded shallowly.
-/

set_option linter.unusedVariables false

/-! ## Value model (raft::object, object.cpp) -/

/-- IEEE-754 double as far as `operator==` can observe it: a finite value
(described exactly by its rational numeric value, so `+0.0` and `-0.0`
coincide), the two infinities, or NaN (all NaN payloads collapsed, since
`==` cannot distinguish them). -/
inductive Double where
  | finite (q : ℚ)
  | posInf
  | negInf
  | nan
deriving DecidableEq

/-- C++ `double operator==`: NaN is unequal to everything, itself included;
infinities equal themselves; finite values compare by numeric value. -/
def Double.beq : Double → Double → Bool
  | .finite a, .finite b => if a = b then true else false
  | .posInf, .posInf => true
  | .negInf, .negInf => true
  | _, _ => false

/-- The closed tagged union `raft::object::Object`
(`std::variant<String, Number, Boolean, Null, CallPtr>`). A `CallPtr`
compares by pointer identity, modelled by an identity number. -/
inductive Object where
  | String (s : String)
  | Number (n : Double)
  | Boolean (b : Bool)
  | Null
  | CallPtr (id : Nat)
deriving DecidableEq

/-- `std::holds_alternative<Null>`. -/
def Object.holdsNull : Object → Bool
  | .Null => true
  | _ => false

/-- `std::variant::operator==`: false across differing alternative indices,
payload `==` on the same alternative. -/
def variantEq : Object → Object → Bool
  | .String a, .String b => if a = b then true else false
  | .Number a, .Number b => Double.beq a b
  | .Boolean a, .Boolean b => if a = b then true else false
  | .Null, .Null => true
  | .CallPtr a, .CallPtr b => if a = b then true else false
  | _, _ => false

/-- Decimal rendering of a double in the style of `std::to_string` (printf
`"%f"`): six digits after the decimal point, the value rounded to the
nearest millionth (ties rounded up; the tie-breaking direction is not
observed by any property proved here). -/
def Double.toDecimalString : Double → String
  | .nan => "nan"
  | .posInf => "inf"
  | .negInf => "-inf"
  | .finite q =>
    let neg := q < 0
    let aq : ℚ := if neg then -q else q
    let scaled : Int := Rat.floor (aq * 1000000 + 1/2)
    let ip := scaled / 1000000
    let fp := scaled % 1000000
    let fpStr := (Nat.toDigits 10 fp.toNat).asString
    let pad := String.mk (List.replicate (6 - fpStr.length) '0')
    (if neg then "-" else "") ++ toString ip ++ "." ++ pad ++ fpStr

/-- `raft::object::obj2str` (object.cpp): variant dispatch; the visitor's
final `else` branch (throw "Unknown Object type") is unreachable because the
union is closed, which the exhaustive match reflects. -/
def obj2str : Object → String
  | .String s => s
  | .Number n => n.toDecimalString
  | .Boolean b => if b then "true" else "false"
  | .Null => "nil"
  | .CallPtr _ => "callable"

/-- `raft::object::isTruthy` (object.cpp): `Null` is falsey, a `Boolean` is
its payload, everything else is truthy. -/
def isTruthy (obj : Object) : Bool :=
  if obj.holdsNull then false
  else match obj with
    | .Boolean b => b
    | _ => true

/-- `raft::object::isEqual` (object.cpp): both `Null` → true; `Null` on the
left only → false; otherwise `std::variant::operator==`. -/
def isEqual (a b : Object) : Bool :=
  if a.holdsNull && b.holdsNull then true
  else if a.holdsNull then false
  else variantEq a b

/-- The variant tag (alternative index) an `Object` currently holds. -/
def Object.variantIndex : Object → Nat
  | .String _ => 0
  | .Number _ => 1
  | .Boolean _ => 2
  | .Null => 3
  | .CallPtr _ => 4

/-! ## Tokens (token.def and the Token record produced by the scanner) -/

/-- Token kinds, from token.def and the kinds parser.cpp tests for. -/
inductive TokenType where
  | LeftParenthesis
  | RightParenthesis
  | LeftCurlyBracket
  | RightCurlyBracket
  | Comma
  | Dot
  | Minus
  | Plus
  | Semicolon
  | Slash
  | Star
  | Bang
  | Equal
  | GreaterThanSign
  | LessThanSign
  | BangEqual
  | EqualEqual
  | GreaterEqual
  | LessEqual
  | Identifier
  | NumberLiteral
  | StringLiteral
  | And
  | Class
  | Else
  | False
  | Fun
  | For
  | If
  | Nil
  | Or
  | Print
  | Return
  | Super
  | This
  | True
  | Var
  | While
  | EndOfFile
deriving DecidableEq

/-- Modelled from the spec: the Token record lives in a header that is not
among the sources; spec §3 defines it as a classified lexeme with a kind, a
line number for diagnostics, the raw lexeme text and an optional attached
literal value (parser.cpp reads `.type`, `.line` and `.literal`). -/
structure Token where
  type : TokenType
  line : Nat
  lexeme : String
  literal : Object
deriving DecidableEq

/-! ## AST (Expr and Stmt node unions) -/

/-- Expression AST nodes, per spec §3 and their construction sites in
parser.cpp. Each node owns its children; child `Expr *` pointers are never
null in the parser, so they embed as plain subterms. -/
inductive Expr where
  | Literal (value : Object)
  | Variable (name : Token)
  | Assign (name : Token) (value : Expr)
  | Grouping (expr : Expr)
  | Unary (op : Token) (right : Expr)
  | Binary (left : Expr) (op : Token) (right : Expr)
  | Logical (left : Expr) (op : Token) (right : Expr)

/-- Statement AST nodes. A `Block` holds the `std::vector<Stmt *>` built by
`Parser::block`, whose elements come from `declaration()` and may therefore
be null (`none`) after an error; `VarDecl`'s initializer and `If`'s else
branch are nullable pointers as well. There is no `For` node: `for` is
desugared at parse time. -/
inductive Stmt where
  | ExprStmt (expr : Expr)
  | Print (expr : Expr)
  | VarDecl (name : Token) (initializer : Option Expr)
  | Block (statements : List (Option Stmt))
  | If (condition : Expr) (thenBranch : Stmt) (elseBranch : Option Stmt)
  | While (condition : Expr) (body : Stmt)

/-! ## Parser state, results and monad -/

/-- `raft::RuntimeError`: a parse error carrying the offending token and a
message (parser.cpp lines 13-17). -/
structure RuntimeError where
  token : Token
  message : String

/-- Parser state: the immutable token sequence, the cursor `current`, the
diagnostics reported so far to the sink (`Raft::error` receives a line and a
message, spec §6), and a flag recording whether any token access ever went
out of bounds (`std::vector::at` would have thrown `std::out_of_range`). -/
structure PState where
  tokens : List Token
  current : Nat
  diags : List (Nat × String)
  oob : Bool

/-- Outcome of running one parser operation: a value, a thrown
`RuntimeError`, or exhaustion of the recursion fuel (a modelling artifact:
the C++ recursion has no fuel, so no claim may hinge on this outcome). -/
inductive PResult (α : Type) where
  | ok : α → PState → PResult α
  | err : RuntimeError → PState → PResult α
  | fuelOut : PState → PResult α

/-- The state the run finished in, whatever the outcome. -/
def PResult.outState : PResult α → PState
  | .ok _ s => s
  | .err _ s => s
  | .fuelOut s => s

/-- Whether the run ended in a thrown `RuntimeError`. -/
def PResult.isErr : PResult α → Bool
  | .err _ _ => true
  | _ => false

/-- A parser operation: C++ member functions of `Parser` mutate `current`
and may throw, so they embed as state transformers into `PResult`. -/
def ParserM (α : Type) : Type := PState → PResult α

/-- Sequencing: run the first operation; a throw or fuel exhaustion skips
the continuation, as C++ stack unwinding does. -/
def pbind (x : ParserM α) (f : α → ParserM β) : ParserM β := fun s =>
  match x s with
  | .ok a s' => f a s'
  | .err e s' => .err e s'
  | .fuelOut s' => .fuelOut s'

/-- Returning a value without touching the state. -/
def ppure (a : α) : ParserM α := fun s => .ok a s

instance : Monad ParserM where
  pure := ppure
  bind := pbind

/-- `try { x } catch (const RuntimeError &ex) { h ex }`: a thrown error is
handed to the handler with the state as the throw left it. -/
def tryCatchRE (x : ParserM α) (h : RuntimeError → ParserM α) : ParserM α :=
  fun s =>
    match x s with
    | .ok a s' => .ok a s'
    | .err e s' => h e s'
    | .fuelOut s' => .fuelOut s'

/-- `throw RuntimeError{token, message}`. -/
def throwRE (t : Token) (m : String) : ParserM α := fun s => .err ⟨t, m⟩ s

/-- Modelled from the spec: `Raft::error` (raft.h/raft.cpp are not among
the sources) is the external diagnostics sink receiving `(line, message)`
pairs, spec §6; it embeds as appending the pair to the diagnostics list. -/
def raftError (line : Nat) (msg : String) : ParserM Unit := fun s =>
  .ok () { s with diags := s.diags ++ [(line, msg)] }

/-- Placeholder token materialized by an out-of-bounds access. -/
def dummyToken : Token := ⟨.EndOfFile, 0, "", .Null⟩

/-- `Parser::peek`: `tokens.at(current)`; an out-of-bounds index sets the
`oob` flag (C++ would throw `std::out_of_range`). -/
def peek : ParserM Token := fun s =>
  if s.current < s.tokens.length then
    .ok (s.tokens.getD s.current dummyToken) s
  else
    .ok dummyToken { s with oob := true }

/-- `Parser::previous`: `tokens.at(current - 1)`; at `current = 0` the
`size_t` subtraction wraps and `at` would throw, recorded in `oob`. -/
def previous : ParserM Token := fun s =>
  if 0 < s.current ∧ s.current - 1 < s.tokens.length then
    .ok (s.tokens.getD (s.current - 1) dummyToken) s
  else
    .ok dummyToken { s with oob := true }

/-- `Parser::isAtEnd`: whether the lookahead token is the end-of-input
sentinel. -/
def isAtEnd : ParserM Bool := do
  let t ← peek
  pure (decide (t.type = .EndOfFile))

/-- `Parser::advance`: consume the current token (the cursor does not move
once at the end-of-input token) and return the token before the cursor. -/
def advance : ParserM Token := do
  let e ← isAtEnd
  if e then
    previous
  else fun s =>
    previous { s with current := s.current + 1 }

/-- `Parser::check`: lookahead test that never consumes and is false at the
end of input. -/
def check (type : TokenType) : ParserM Bool := do
  let e ← isAtEnd
  if e then
    pure false
  else do
    let t ← peek
    pure (decide (t.type = type))

/-- Modelled from the spec: `Parser::match` is declared in the missing
parser.h; per spec §4.2 alternation is an ordered `match`-style token test
with one token of lookahead, and parser.cpp's comment block describes a
terminal as "code to match and consume a token": test each kind in order
with `check`, and on the first hit consume it and report success. -/
def matchT : List TokenType → ParserM Bool
  | [] => pure false
  | t :: ts => do
    let c ← check t
    if c then do
      let _ ← advance
      pure true
    else
      matchT ts

/-- `Parser::consume`: take the expected token or throw a `RuntimeError`
carrying the current token and the given message. -/
def consume (type : TokenType) (message : String) : ParserM Token := do
  let c ← check type
  if c then
    advance
  else do
    let t ← peek
    throwRE t message

/-- Exhausted recursion fuel (a modelling artifact: the C++ recursion has
no fuel, so no claim may hinge on this outcome). -/
def stop : ParserM α := fun s => .fuelOut s

/-- One iteration of `Parser::synchronize`'s loop: finish if at the end,
just past a `;`, or in front of a keyword that begins a statement or
declaration; otherwise discard a token and continue as `ih`. -/
def syncLoopStep (ih : ParserM Unit) : ParserM Unit := do
  let e ← isAtEnd
  if e then
    pure ()
  else do
    let pv ← previous
    if pv.type = .Semicolon then
      pure ()
    else do
      let t ← peek
      match t.type with
      | .Class | .Fun | .Var | .For | .If | .While | .Print | .Return =>
        pure ()
      | _ => do
        let _ ← advance
        ih

/-- `Parser::synchronize`'s loop with an iteration budget. -/
def syncLoop : Nat → ParserM Unit :=
  @Nat.rec (fun _ => ParserM Unit) stop (fun _ ih => syncLoopStep ih)

/-- `Parser::synchronize`: skip the offending token, then discard up to a
statement boundary. The C++ loop needs no fuel — every iteration that
continues consumes a token — so the budget `length + 2`, which the loop can
never exhaust, is computed right from the state. -/
def synchronize : ParserM Unit := do
  let _ ← advance
  fun s => syncLoop (s.tokens.length + 2) s

/-! ## Grammar rules (parser.cpp), fuel-indexed: every call between rules
spends one unit of fuel; the C++ recursion carries no fuel, so theorems
quantify over it or use an amount ample for the input at hand. -/

/-- The bundle of all grammar-rule operations at one fuel level. Each field
is one `Parser` member function of parser.cpp (the `*Loop` fields are the
`while` loops inside the corresponding functions, the loop's state as an
argument). -/
structure RuleSet where
  expression : ParserM Expr
  assignment : ParserM Expr
  logicOr : ParserM Expr
  logicOrLoop : Expr → ParserM Expr
  logicAnd : ParserM Expr
  logicAndLoop : Expr → ParserM Expr
  equality : ParserM Expr
  equalityLoop : Expr → ParserM Expr
  comparison : ParserM Expr
  comparisonLoop : Expr → ParserM Expr
  term : ParserM Expr
  termLoop : Expr → ParserM Expr
  factor : ParserM Expr
  factorLoop : Expr → ParserM Expr
  unary : ParserM Expr
  primary : ParserM Expr
  declaration : ParserM (Option Stmt)
  varDeclaration : ParserM Stmt
  statement : ParserM Stmt
  forStatement : ParserM Stmt
  ifStatement : ParserM Stmt
  printStatement : ParserM Stmt
  whileStatement : ParserM Stmt
  blockStmts : ParserM (List (Option Stmt))
  blockLoop : List (Option Stmt) → ParserM (List (Option Stmt))
  expressionStatement : ParserM Stmt

/-- The rule set with no fuel left: every rule stops. -/
def rulesBase : RuleSet where
  expression := stop
  assignment := stop
  logicOr := stop
  logicOrLoop := fun _ => stop
  logicAnd := stop
  logicAndLoop := fun _ => stop
  equality := stop
  equalityLoop := fun _ => stop
  comparison := stop
  comparisonLoop := fun _ => stop
  term := stop
  termLoop := fun _ => stop
  factor := stop
  factorLoop := fun _ => stop
  unary := stop
  primary := stop
  declaration := stop
  varDeclaration := stop
  statement := stop
  forStatement := stop
  ifStatement := stop
  whileStatement := stop
  printStatement := stop
  blockStmts := stop
  blockLoop := fun _ => stop
  expressionStatement := stop

/-- One fuel level of every grammar rule, each the direct transcription of
its parser.cpp function; `p` holds the rules at the next-lower fuel, so
`p.x` is a (mutually) recursive call to `x`.

- `expression :: assignment` (parser.cpp line 51).
- `assignment :: IDENTIFIER "=" assignment | logic_or` (line 57): on `=`,
  the value is parsed right-associatively; a left side that is not a
  `Variable` node is reported to the sink at the equals sign's line and
  returned unchanged, with no `Assign` node built.
- `logic_or :: logic_and ( "or" logic_and )*` (line 123) and
  `logic_and :: equality ( "and" equality )*` (line 135), folding left.
- `equality :: comparison ( ( "!=" | "==" ) comparison )*` (line 74),
  `comparison :: term ( ( ">" | ">=" | "<" | "<=" ) term )*` (line 86),
  `term :: factor ( ( "-" | "+" ) factor )*` (line 99),
  `factor :: unary ( ( "/" | "*" ) unary )*` (line 111), folding left.
- `unary :: ( "!" | "-" ) unary | primary` (line 147).
- `primary :: NUMBER | STRING | "true" | "false" | "nil" |
  "(" expression ")" | IDENTIFIER` (line 158); anything else throws
  "Expect expression" at the current token.
- `declaration :: varDecl | statement` (line 186): a thrown parse error is
  caught here, reported, recovered from by `synchronize`, and a null
  statement (`none`) results.
- `varDecl :: "var" IDENTIFIER ( "=" expression )? ";"` (line 201).
- `statement :: exprStmt | forStmt | ifStmt | printStmt | whileStmt |
  block` (line 213), tried in the source's order.
- `forStmt` (line 234): parsed and immediately desugared — the increment
  becomes the tail of a two-statement block around the body, a missing
  condition becomes a `true` literal, the whole becomes a `While`, and an
  initializer wraps it in an outer `Block`; no `For` node exists.
- `ifStmt :: "if" "(" expression ")" statement ( "else" statement )?`
  (line 292).
- `printStmt :: "print" expression ";"` (line 307).
- `whileStmt :: "while" "(" expression ")" statement` (line 315).
- `block :: "{" declaration* "}"` (line 326): collects declarations (null
  results included, as `emplace_back(declaration())` does) until `"\x7d"`
  or the end of input.
- `exprStmt :: expression ";"` (line 337). -/
def rulesStep (p : RuleSet) : RuleSet where
  expression := p.assignment
  assignment := do
    let expr ← p.logicOr
    let m ← matchT [.Equal]
    if m then do
      let equals ← previous
      let value ← p.assignment
      match expr with
      | .Variable name => pure (Expr.Assign name value)
      | _ => do
        raftError equals.line "Invalid assignment target"
        pure expr
    else
      pure expr
  logicOr := do
    let expr ← p.logicAnd
    p.logicOrLoop expr
  logicOrLoop := fun expr => do
    let m ← matchT [.Or]
    if m then do
      let op ← previous
      let right ← p.logicAnd
      p.logicOrLoop (Expr.Logical expr op right)
    else
      pure expr
  logicAnd := do
    let expr ← p.equality
    p.logicAndLoop expr
  logicAndLoop := fun expr => do
    let m ← matchT [.And]
    if m then do
      let op ← previous
      let right ← p.equality
      p.logicAndLoop (Expr.Logical expr op right)
    else
      pure expr
  equality := do
    let expr ← p.comparison
    p.equalityLoop expr
  equalityLoop := fun expr => do
    let m ← matchT [.BangEqual, .EqualEqual]
    if m then do
      let op ← previous
      let right ← p.comparison
      p.equalityLoop (Expr.Binary expr op right)
    else
      pure expr
  comparison := do
    let expr ← p.term
    p.comparisonLoop expr
  comparisonLoop := fun expr => do
    let m ← matchT [.GreaterThanSign, .GreaterEqual, .LessThanSign, .LessEqual]
    if m then do
      let op ← previous
      let right ← p.term
      p.comparisonLoop (Expr.Binary expr op right)
    else
      pure expr
  term := do
    let expr ← p.factor
    p.termLoop expr
  termLoop := fun expr => do
    let m ← matchT [.Minus, .Plus]
    if m then do
      let op ← previous
      let right ← p.factor
      p.termLoop (Expr.Binary expr op right)
    else
      pure expr
  factor := do
    let expr ← p.unary
    p.factorLoop expr
  factorLoop := fun expr => do
    let m ← matchT [.Slash, .Star]
    if m then do
      let op ← previous
      let right ← p.unary
      p.factorLoop (Expr.Binary expr op right)
    else
      pure expr
  unary := do
    let m ← matchT [.Bang, .Minus]
    if m then do
      let op ← previous
      let right ← p.unary
      pure (Expr.Unary op right)
    else
      p.primary
  primary := do
    let mFalse ← matchT [.False]
    if mFalse then
      pure (Expr.Literal (.Boolean false))
    else do
    let mTrue ← matchT [.True]
    if mTrue then
      pure (Expr.Literal (.Boolean true))
    else do
    let mNil ← matchT [.Nil]
    if mNil then
      pure (Expr.Literal .Null)
    else do
    let mLit ← matchT [.NumberLiteral, .StringLiteral]
    if mLit then do
      let t ← previous
      pure (Expr.Literal t.literal)
    else do
    let mId ← matchT [.Identifier]
    if mId then do
      let t ← previous
      pure (Expr.Variable t)
    else do
    let mParen ← matchT [.LeftParenthesis]
    if mParen then do
      let e ← p.expression
      let _ ← consume .RightParenthesis "Exprect ')' after expression"
      pure (Expr.Grouping e)
    else do
      let t ← peek
      throwRE t "Expect expression"
  declaration :=
    tryCatchRE
      (do
        let m ← matchT [.Var]
        if m then do
          let st ← p.varDeclaration
          pure (some st)
        else do
          let st ← p.statement
          pure (some st))
      (fun e => do
        raftError e.token.line e.message
        synchronize
        pure none)
  varDeclaration := do
    let name ← consume .Identifier "Expect variable name"
    let m ← matchT [.Equal]
    let initializer ← if m then do
        let e ← p.expression
        pure (some e)
      else
        pure (none : Option Expr)
    let _ ← consume .Semicolon "Expect ';' after variable declaration"
    pure (Stmt.VarDecl name initializer)
  statement := do
    let mFor ← matchT [.For]
    if mFor then
      p.forStatement
    else do
    let mIf ← matchT [.If]
    if mIf then
      p.ifStatement
    else do
    let mPrint ← matchT [.Print]
    if mPrint then
      p.printStatement
    else do
    let mWhile ← matchT [.While]
    if mWhile then
      p.whileStatement
    else do
    let mBlock ← matchT [.LeftCurlyBracket]
    if mBlock then do
      let stmts ← p.blockStmts
      pure (Stmt.Block stmts)
    else
      p.expressionStatement
  forStatement := do
    let _ ← consume .LeftParenthesis "Expect '(' after 'for'"
    let mSemi ← matchT [.Semicolon]
    let initializer ← if mSemi then
        pure (none : Option Stmt)
      else do
        let mVar ← matchT [.Var]
        if mVar then do
          let st ← p.varDeclaration
          pure (some st)
        else do
          let st ← p.expressionStatement
          pure (some st)
    let cSemi ← check .Semicolon
    let condition ← if cSemi then
        pure (none : Option Expr)
      else do
        let e ← p.expression
        pure (some e)
    let _ ← consume .Semicolon "Expect ';' after loop condition"
    let cParen ← check .RightParenthesis
    let increment ← if cParen then
        pure (none : Option Expr)
      else do
        let e ← p.expression
        pure (some e)
    let _ ← consume .RightParenthesis "Expect ')' after for clauses"
    let body ← p.statement
    let body1 := match increment with
      | some inc => Stmt.Block [some body, some (Stmt.ExprStmt inc)]
      | none => body
    let cond := match condition with
      | some c => c
      | none => Expr.Literal (.Boolean true)
    let body2 := Stmt.While cond body1
    match initializer with
    | some ini => pure (Stmt.Block [some ini, some body2])
    | none => pure body2
  ifStatement := do
    let _ ← consume .LeftParenthesis "Exprect '(' after 'if'"
    let condition ← p.expression
    let _ ← consume .RightParenthesis "Exprect ')' after if condition"
    let thenBranch ← p.statement
    let m ← matchT [.Else]
    let elseBranch ← if m then do
        let st ← p.statement
        pure (some st)
      else
        pure (none : Option Stmt)
    pure (Stmt.If condition thenBranch elseBranch)
  printStatement := do
    let value ← p.expression
    let _ ← consume .Semicolon "Expect ';' after value"
    pure (Stmt.Print value)
  whileStatement := do
    let _ ← consume .LeftParenthesis "Expect '(' after 'while'"
    let condition ← p.expression
    let _ ← consume .RightParenthesis "Exprect ')' after condition"
    let body ← p.statement
    pure (Stmt.While condition body)
  blockStmts := p.blockLoop []
  blockLoop := fun acc => do
    let c ← check .RightCurlyBracket
    if c then do
      let _ ← consume .RightCurlyBracket "Exprect '\x7d' after block"
      pure acc
    else do
      let e ← isAtEnd
      if e then do
        let _ ← consume .RightCurlyBracket "Exprect '\x7d' after block"
        pure acc
      else do
        let d ← p.declaration
        p.blockLoop (acc ++ [d])
  expressionStatement := do
    let expr ← p.expression
    let _ ← consume .Semicolon "Exprect ';' after expession"
    pure (Stmt.ExprStmt expr)

/-- The grammar rules with `f` units of recursion fuel. -/
def rules : Nat → RuleSet :=
  @Nat.rec (fun _ => RuleSet) rulesBase (fun _ p => rulesStep p)

/-- `Parser::expression` at fuel `f`. -/
def expression (f : Nat) : ParserM Expr := (rules f).expression

/-- `Parser::assignment` at fuel `f`. -/
def assignment (f : Nat) : ParserM Expr := (rules f).assignment

/-- `Parser::declaration` at fuel `f`. -/
def declaration (f : Nat) : ParserM (Option Stmt) := (rules f).declaration

/-- `Parser::statement` at fuel `f`. -/
def statement (f : Nat) : ParserM Stmt := (rules f).statement

/-- `Parser::forStatement` at fuel `f`. -/
def forStatement (f : Nat) : ParserM Stmt := (rules f).forStatement

/-- `Parser::term` at fuel `f`. -/
def term (f : Nat) : ParserM Expr := (rules f).term

/-- `Parser::factor` at fuel `f`. -/
def factor (f : Nat) : ParserM Expr := (rules f).factor

/-- `Parser::logicOr` at fuel `f`. -/
def logicOr (f : Nat) : ParserM Expr := (rules f).logicOr

/-- `Parser::logicAnd` at fuel `f`. -/
def logicAnd (f : Nat) : ParserM Expr := (rules f).logicAnd

/-- `Parser::equality` at fuel `f`. -/
def equality (f : Nat) : ParserM Expr := (rules f).equality

/-- `Parser::comparison` at fuel `f`. -/
def comparison (f : Nat) : ParserM Expr := (rules f).comparison

/-- `Parser::unary` at fuel `f`. -/
def unary (f : Nat) : ParserM Expr := (rules f).unary

/-- `Parser::primary` at fuel `f`. -/
def primary (f : Nat) : ParserM Expr := (rules f).primary

/-- `Parser::varDeclaration` at fuel `f`. -/
def varDeclaration (f : Nat) : ParserM Stmt := (rules f).varDeclaration

/-- `Parser::ifStatement` at fuel `f`. -/
def ifStatement (f : Nat) : ParserM Stmt := (rules f).ifStatement

/-- `Parser::printStatement` at fuel `f`. -/
def printStatement (f : Nat) : ParserM Stmt := (rules f).printStatement

/-- `Parser::whileStatement` at fuel `f`. -/
def whileStatement (f : Nat) : ParserM Stmt := (rules f).whileStatement

/-- `Parser::block` at fuel `f`. -/
def blockStmts (f : Nat) : ParserM (List (Option Stmt)) := (rules f).blockStmts

/-- `Parser::expressionStatement` at fuel `f`. -/
def expressionStatement (f : Nat) : ParserM Stmt := (rules f).expressionStatement

/-- One iteration of the statement-collecting loop of `Parser::parse`
(line 36): while not at the end push `declaration()`'s result (null
included) and continue as `ih`; the enclosing `try` means a `RuntimeError`
reaching this level is reported, recovered from by `synchronize`, and the
statements built so far are returned. -/
def parseGoStep (dec : ParserM (Option Stmt))
    (ih : List (Option Stmt) → ParserM (List (Option Stmt)))
    (acc : List (Option Stmt)) : ParserM (List (Option Stmt)) := do
  let e ← isAtEnd
  if e then
    pure acc
  else
    tryCatchRE
      (do
        let d ← dec
        ih (acc ++ [d]))
      (fun ex => do
        raftError ex.token.line ex.message
        synchronize
        pure acc)

/-- The loop of `Parser::parse` at fuel `f`, with the statements built so
far. -/
def parseGo : Nat → List (Option Stmt) → ParserM (List (Option Stmt)) :=
  @Nat.rec (fun _ => List (Option Stmt) → ParserM (List (Option Stmt)))
    (fun _ => stop)
    (fun f ih => parseGoStep (declaration f) ih)

/-- `Parser::parse`: `program :: declaration* EOF`. -/
def parse (f : Nat) : ParserM (List (Option Stmt)) := parseGo f []

/-- The state a fresh `Parser` starts from on a token sequence. -/
def initState (ts : List Token) : PState := ⟨ts, 0, [], false⟩

/-- The statement list `parse` returns on a token sequence, if it returns
(none on a thrown error or fuel exhaustion). -/
def parseResult (f : Nat) (ts : List Token) : Option (List (Option Stmt)) :=
  match parse f (initState ts) with
  | .ok v _ => some v
  | _ => none

/-- The diagnostics the sink received by the end of a parse. -/
def parseDiags (f : Nat) (ts : List Token) : List (Nat × String) :=
  (parse f (initState ts)).outState.diags

/-- The expression `Parser::expression` yields on a token sequence, if it
returns one. -/
def expressionResult (f : Nat) (ts : List Token) : Option Expr :=
  match expression f (initState ts) with
  | .ok v _ => some v
  | _ => none

/-! ## Concrete token sequences, as the external scanner would produce
them for the spec's example sources -/

/-- A token with no literal payload. -/
def tk (ty : TokenType) (line : Nat) (lex : String) : Token :=
  ⟨ty, line, lex, .Null⟩

/-- A number-literal token. -/
def numTk (n : ℚ) (line : Nat) (lex : String) : Token :=
  ⟨.NumberLiteral, line, lex, .Number (.finite n)⟩

/-- The identifier token `i` of the for-desugaring example. -/
def iTok : Token := ⟨.Identifier, 1, "i", .Null⟩

/-- Tokens of `"1 + 2 * 3"`. -/
def plusToks : List Token :=
  [numTk 1 1 "1", tk .Plus 1 "+", numTk 2 1 "2", tk .Star 1 "*",
   numTk 3 1 "3", tk .EndOfFile 1 ""]

/-- Tokens of `"1 - 2 - 3"`. -/
def minusToks : List Token :=
  [numTk 1 1 "1", tk .Minus 1 "-", numTk 2 1 "2", tk .Minus 1 "-",
   numTk 3 1 "3", tk .EndOfFile 1 ""]

/-- Tokens of `"1 = 2;"`; the equals sign is placed on its own source line
7 so that the diagnostic's line visibly comes from that token. -/
def assignTgtToks : List Token :=
  [numTk 1 1 "1", tk .Equal 7 "=", numTk 2 1 "2", tk .Semicolon 1 ";",
   tk .EndOfFile 1 ""]

/-- Tokens of `"for (var i = 0; i < 3; i = i + 1) print i;"`. -/
def forToks : List Token :=
  [tk .For 1 "for", tk .LeftParenthesis 1 "(", tk .Var 1 "var", iTok,
   tk .Equal 1 "=", numTk 0 1 "0", tk .Semicolon 1 ";", iTok,
   tk .LessThanSign 1 "<", numTk 3 1 "3", tk .Semicolon 1 ";", iTok,
   tk .Equal 1 "=", iTok, tk .Plus 1 "+", numTk 1 1 "1",
   tk .RightParenthesis 1 ")", tk .Print 1 "print", iTok,
   tk .Semicolon 1 ";", tk .EndOfFile 1 ""]

/-- Tokens of `"for (;;) print 1;"`, the omitted-condition form. -/
def forEmptyToks : List Token :=
  [tk .For 1 "for", tk .LeftParenthesis 1 "(", tk .Semicolon 1 ";",
   tk .Semicolon 1 ";", tk .RightParenthesis 1 ")", tk .Print 1 "print",
   numTk 1 1 "1", tk .Semicolon 1 ";", tk .EndOfFile 1 ""]

/-- Tokens of `"var ;  print ;  print 1;"`: two independent malformed
statements (a `var` with no name, a `print` with no operand), each ended by
`;`, followed by one well-formed statement. -/
def twoErrToks : List Token :=
  [tk .Var 1 "var", tk .Semicolon 1 ";", tk .Print 2 "print",
   tk .Semicolon 2 ";", tk .Print 3 "print", numTk 1 3 "1",
   tk .Semicolon 3 ";", tk .EndOfFile 3 ""]


/-- A parser state with no out-of-bounds access recorded. -/
def pstate (ts : List Token) (n : Nat) (ds : List (Nat × String)) : PState :=
  ⟨ts, n, ds, false⟩

/-- Cursor states along the parse of the for-desugaring example. -/
def fS (n : Nat) : PState := pstate forToks n []

/-! ## C1: error containment and recovery -/

/-- An operation that never finishes in a thrown `RuntimeError`. -/
def NoErr (x : ParserM α) : Prop := ∀ s, (x s).isErr = false

/-! ## C10: the cursor invariant — an EOF-terminated token sequence keeps
every token access of a parse in bounds -/

/-- The token sequence is terminated by the end-of-input sentinel. -/
def lastEof (ts : List Token) : Bool :=
  !ts.isEmpty && decide ((ts.getD (ts.length - 1) dummyToken).type = .EndOfFile)

/-- The kind of the token under the cursor. -/
def curType (s : PState) : TokenType :=
  (s.tokens.getD s.current dummyToken).type

/-- The cursor invariant: no out-of-bounds access has happened, the cursor
is at most the sentinel's index, and the sequence is EOF-terminated. -/
def StInv (s : PState) : Prop :=
  s.oob = false ∧ s.current < s.tokens.length ∧ lastEof s.tokens = true

/-- The cursor has moved at least once, or does not yet face the sentinel:
exactly what makes `synchronize`'s unconditional `previous` safe. -/
def Prog (s : PState) : Prop :=
  0 < s.current ∨ curType s ≠ .EndOfFile

/-- The states a run leaves behind keep the invariant, the same token
sequence, and a cursor that never moved backwards. -/
def GoodRes (s : PState) (r : PResult α) : Prop :=
  StInv r.outState ∧ r.outState.tokens = s.tokens ∧ s.current ≤ r.outState.current

/-- A rule operation that keeps the cursor invariant from every invariant
state. -/
def GoodRule (F : ParserM α) : Prop := ∀ s, StInv s → GoodRes s (F s)

/-- A rule operation that keeps the cursor invariant from every invariant
state that has progressed (what `declaration` needs, since its recovery
path runs `synchronize`). -/
def GoodRuleP (F : ParserM α) : Prop :=
  ∀ s, StInv s → Prog s → GoodRes s (F s)

/-- All rules of one fuel level keep the cursor invariant. -/
def RulesGood (p : RuleSet) : Prop :=
  GoodRule p.expression ∧ GoodRule p.assignment ∧
  GoodRule p.logicOr ∧ (∀ e, GoodRule (p.logicOrLoop e)) ∧
  GoodRule p.logicAnd ∧ (∀ e, GoodRule (p.logicAndLoop e)) ∧
  GoodRule p.equality ∧ (∀ e, GoodRule (p.equalityLoop e)) ∧
  GoodRule p.comparison ∧ (∀ e, GoodRule (p.comparisonLoop e)) ∧
  GoodRule p.term ∧ (∀ e, GoodRule (p.termLoop e)) ∧
  GoodRule p.factor ∧ (∀ e, GoodRule (p.factorLoop e)) ∧
  GoodRule p.unary ∧ GoodRule p.primary ∧
  GoodRuleP p.declaration ∧ GoodRule p.varDeclaration ∧
  GoodRule p.statement ∧ GoodRule p.forStatement ∧
  GoodRule p.ifStatement ∧ GoodRule p.printStatement ∧
  GoodRule p.whileStatement ∧ GoodRule p.blockStmts ∧
  (∀ acc, GoodRule (p.blockLoop acc)) ∧ GoodRule p.expressionStatement

/-- C6: `isTruthy v = false` iff `v` is `Null` or `Boolean false`; hence
every `String`, `Number` and `CallPtr` value is truthy, and `isTruthy` is a
total function on the closed union. -/
theorem c6_isTruthy_false_iff (v : Object) :
    isTruthy v = false ↔ (v = .Null ∨ v = .Boolean false) := by
  cases v <;> simp [isTruthy, Object.holdsNull]

/-- C7 counterexample: reflexivity of `isEqual` fails on a NaN `Number`
payload, because C++ `double ==` (hence `std::variant::operator==`) makes
NaN unequal to itself. -/
theorem c7_counterexample_nan :
    isEqual (.Number .nan) (.Number .nan) = false := rfl

/-- C7 (amended): `isEqual v v = true` for every Value `v` other than a
`Number` holding NaN; `isEqual Null Null = true`; and
`isEqual Null x = false` for every non-`Null` `x`. -/
theorem c7_isEqual_reflexive_amended :
    (∀ v : Object, v ≠ .Number .nan → isEqual v v = true) ∧
    isEqual .Null .Null = true ∧
    (∀ x : Object, x ≠ .Null → isEqual .Null x = false) := by
  refine ⟨?_, rfl, ?_⟩
  · intro v hv
    cases v with
    | String s => simp [isEqual, Object.holdsNull, variantEq]
    | Number n =>
      cases n with
      | finite q => simp [isEqual, Object.holdsNull, variantEq, Double.beq]
      | posInf => rfl
      | negInf => rfl
      | nan => exact absurd rfl hv
    | Boolean b => simp [isEqual, Object.holdsNull, variantEq]
    | Null => rfl
    | CallPtr i => simp [isEqual, Object.holdsNull, variantEq]
  · intro x hx
    cases x with
    | String s => rfl
    | Number n => rfl
    | Boolean b => rfl
    | Null => exact absurd rfl hx
    | CallPtr i => rfl

/-- Witness for the amended C7 at concrete inputs. -/
theorem c7_isEqual_reflexive_amended_witness :
    isEqual (.Number (.finite 2)) (.Number (.finite 2)) = true ∧
    isEqual .Null (.Boolean false) = false :=
  ⟨c7_isEqual_reflexive_amended.1 _ (by decide),
   c7_isEqual_reflexive_amended.2.2 _ (by decide)⟩

/-- C8: values holding different variant tags are never `isEqual`; there is
no coercion across variants. -/
theorem c8_no_cross_variant_equality (a b : Object)
    (h : a.variantIndex ≠ b.variantIndex) : isEqual a b = false := by
  cases a <;> cases b <;>
    first
      | exact absurd rfl h
      | rfl

/-- Witness for C8 at the claim's own example, `Number 0` vs
`Boolean false`. -/
theorem c8_no_cross_variant_equality_witness :
    isEqual (.Number (.finite 0)) (.Boolean false) = false :=
  c8_no_cross_variant_equality _ _ (by decide)

/-- C9: `obj2str` dispatches on the variant: a `String` renders verbatim, a
`Boolean` as `"true"`/`"false"`, `Null` as `"nil"`, a callable as the fixed
placeholder `"callable"`; being a total function on the closed union, only a
variant outside it could reach the fatal branch of the C++ visitor. -/
theorem c9_obj2str_dispatch :
    (∀ s, obj2str (.String s) = s) ∧
    (∀ b, obj2str (.Boolean b) = if b then "true" else "false") ∧
    obj2str .Null = "nil" ∧
    (∀ c, obj2str (.CallPtr c) = "callable") :=
  ⟨fun _ => rfl, fun _ => rfl, rfl, fun _ => rfl⟩

theorem rules_zero : rules 0 = rulesBase := rfl

theorem rules_succ (f : Nat) : rules (f + 1) = rulesStep (rules f) := rfl

theorem parseGo_zero (acc : List (Option Stmt)) : parseGo 0 acc = stop := rfl

theorem parseGo_succ (f : Nat) :
    parseGo (f + 1) = parseGoStep (declaration f) (parseGo f) := rfl

/-! ## Stepping lemmas: a concrete run of the parser is proved by chaining
the outcome of one operation at a time, each settled definitionally on an
explicit state -/

/-- Chain one successful operation into the continuation of a bind. -/
theorem run_bind (a : α) (s' : PState) {x : ParserM α} {k : α → ParserM β}
    {s : PState} {r : PResult β} (h1 : x s = .ok a s') (h2 : k a s' = r) :
    (x >>= k) s = r := by
  show pbind x k s = r
  unfold pbind
  rw [h1]
  exact h2

/-- Chain a Bool-valued operation that came out `false` into the else
branch of the `if` consuming it. -/
theorem run_bind_ite_false (s' : PState) {x : ParserM Bool} {kt kf : ParserM β}
    {s : PState} {r : PResult β} (h1 : x s = .ok false s') (h2 : kf s' = r) :
    (x >>= fun b => if b = true then kt else kf) s = r := by
  refine run_bind false s' h1 ?_
  simpa using h2

/-- Chain a Bool-valued operation that came out `true` into the then branch
of the `if` consuming it. -/
theorem run_bind_ite_true (s' : PState) {x : ParserM Bool} {kt kf : ParserM β}
    {s : PState} {r : PResult β} (h1 : x s = .ok true s') (h2 : kt s' = r) :
    (x >>= fun b => if b = true then kt else kf) s = r := by
  refine run_bind true s' h1 ?_
  simpa using h2

/-- A `try` block whose body succeeds. -/
theorem run_tryCatch_ok (a : α) (s' : PState) {x : ParserM α}
    {hh : RuntimeError → ParserM α} {s : PState} (h1 : x s = .ok a s') :
    tryCatchRE x hh s = .ok a s' := by
  unfold tryCatchRE
  rw [h1]

/-- A `try` block whose body throws, continuing in the handler. -/
theorem run_tryCatch_err (e : RuntimeError) (s₁ : PState) {x : ParserM α}
    {hh : RuntimeError → ParserM α} {s : PState} {r : PResult α}
    (h1 : x s = .err e s₁) (h2 : hh e s₁ = r) : tryCatchRE x hh s = r := by
  unfold tryCatchRE
  rw [h1]
  exact h2

/-- A successful run of the `Parser::parse` loop determines `parseResult`. -/
theorem parseResult_ok (s' : PState) {f : Nat} {ts : List Token}
    {v : List (Option Stmt)} (h : parseGo f [] (initState ts) = .ok v s') :
    parseResult f ts = some v := by
  unfold parseResult parse
  rw [h]

/-- A successful run of the `Parser::parse` loop determines `parseDiags`. -/
theorem parseDiags_ok (s' : PState) {f : Nat} {ts : List Token}
    {v : List (Option Stmt)} (h : parseGo f [] (initState ts) = .ok v s') :
    parseDiags f ts = s'.diags := by
  unfold parseDiags parse
  rw [h]
  rfl

/-- One unfolding of the `Parser::parse` loop. -/
theorem run_parseGo (f : Nat) {acc : List (Option Stmt)} {s : PState}
    {r : PResult (List (Option Stmt))}
    (h1 : (do
      let e ← isAtEnd
      if e then
        pure acc
      else
        tryCatchRE
          (do
            let d ← declaration f
            parseGo f (acc ++ [d]))
          (fun ex => do
            raftError ex.token.line ex.message
            synchronize
            pure acc)) s = r) :
    parseGo (f + 1) acc s = r := h1

/-- One unfolding of `Parser::declaration`, body expressed through the
named rule operations. -/
theorem run_declaration_ok (f : Nat) {a : Option Stmt} {s s' : PState}
    (h1 : (do
      let m ← matchT [.Var]
      if m then do
        let st ← varDeclaration f
        pure (some st)
      else do
        let st ← statement f
        pure (some st)) s = .ok a s') :
    declaration (f + 1) s = .ok a s' :=
  run_tryCatch_ok a s' h1

/-- One unfolding of `Parser::statement`. -/
theorem run_statement_ok (f : Nat) {a : Stmt} {s s' : PState}
    (h1 : (do
      let mFor ← matchT [.For]
      if mFor then
        forStatement f
      else do
      let mIf ← matchT [.If]
      if mIf then
        ifStatement f
      else do
      let mPrint ← matchT [.Print]
      if mPrint then
        printStatement f
      else do
      let mWhile ← matchT [.While]
      if mWhile then
        whileStatement f
      else do
      let mBlock ← matchT [.LeftCurlyBracket]
      if mBlock then do
        let stmts ← blockStmts f
        pure (Stmt.Block stmts)
      else
        expressionStatement f) s = .ok a s') :
    statement (f + 1) s = .ok a s' := h1

/-- One unfolding of `Parser::forStatement`. -/
theorem run_forStatement_ok (f : Nat) {a : Stmt} {s s' : PState}
    (h1 : (do
      let _ ← consume .LeftParenthesis "Expect '(' after 'for'"
      let mSemi ← matchT [.Semicolon]
      let initializer ← if mSemi then
          pure (none : Option Stmt)
        else do
          let mVar ← matchT [.Var]
          if mVar then do
            let st ← varDeclaration f
            pure (some st)
          else do
            let st ← expressionStatement f
            pure (some st)
      let cSemi ← check .Semicolon
      let condition ← if cSemi then
          pure (none : Option Expr)
        else do
          let e ← expression f
          pure (some e)
      let _ ← consume .Semicolon "Expect ';' after loop condition"
      let cParen ← check .RightParenthesis
      let increment ← if cParen then
          pure (none : Option Expr)
        else do
          let e ← expression f
          pure (some e)
      let _ ← consume .RightParenthesis "Expect ')' after for clauses"
      let body ← statement f
      let body1 := match increment with
        | some inc => Stmt.Block [some body, some (Stmt.ExprStmt inc)]
        | none => body
      let cond := match condition with
        | some c => c
        | none => Expr.Literal (.Boolean true)
      let body2 := Stmt.While cond body1
      match initializer with
      | some ini => pure (Stmt.Block [some ini, some body2])
      | none => pure body2) s = .ok a s') :
    forStatement (f + 1) s = .ok a s' := h1

/-! ## Claims about the parser's concrete behaviour -/

set_option maxHeartbeats 1000000 in
/-- C4: parsing `"1 + 2 * 3"` yields a `Binary(+)` node whose right child
is the `Binary(*)` node: multiplication binds tighter than addition under
the precedence chain assignment < logic_or < logic_and < equality <
comparison < term < factor < unary < primary. -/
theorem c4_precedence_mul_over_add :
    expressionResult 99 plusToks =
      some (.Binary
        (.Literal (.Number (.finite 1)))
        (tk .Plus 1 "+")
        (.Binary
          (.Literal (.Number (.finite 2)))
          (tk .Star 1 "*")
          (.Literal (.Number (.finite 3))))) := rfl

set_option maxHeartbeats 1000000 in
/-- C5: parsing `"1 - 2 - 3"` yields `Binary(-, Binary(-,1,2), 3)`: each
precedence level's loop folds new right operands onto the growing left
tree, so same-level operators associate to the left. -/
theorem c5_left_associativity :
    expressionResult 99 minusToks =
      some (.Binary
        (.Binary
          (.Literal (.Number (.finite 1)))
          (tk .Minus 1 "-")
          (.Literal (.Number (.finite 2))))
        (tk .Minus 1 "-")
        (.Literal (.Number (.finite 3)))) := rfl

set_option maxHeartbeats 1000000 in
/-- C3: parsing `"1 = 2;"` reports exactly one invalid-assignment-target
diagnostic, at the equals-sign token's source line (7, distinct from every
other token's line), builds no `Assign` node, and parsing continues with
the already-parsed left expression, which ends up as the statement. -/
theorem c3_invalid_assignment_target :
    parseResult 15 assignTgtToks =
      some [some (.ExprStmt (.Literal (.Number (.finite 1))))] ∧
    parseDiags 15 assignTgtToks = [(7, "Invalid assignment target")] :=
  ⟨rfl, rfl⟩

set_option maxHeartbeats 1000000 in
/-- C2: parsing `"for (var i = 0; i < 3; i = i + 1) print i;"` yields a
`Block` of the `VarDecl` followed by a `While` whose body is a `Block` of
the original `print` statement followed by the increment as an `ExprStmt`;
no `For` node exists (the `Stmt` union has no such variant), and an omitted
condition, as in `"for (;;) print 1;"`, becomes a `true` literal. -/
theorem c2_for_desugaring :
    parseResult 17 forToks =
      some [some (.Block
        [some (.VarDecl iTok (some (.Literal (.Number (.finite 0))))),
         some (.While
           (.Binary (.Variable iTok) (tk .LessThanSign 1 "<")
             (.Literal (.Number (.finite 3))))
           (.Block
             [some (.Print (.Variable iTok)),
              some (.ExprStmt (.Assign iTok
                (.Binary (.Variable iTok) (tk .Plus 1 "+")
                  (.Literal (.Number (.finite 1))))))]))])] ∧
    parseResult 16 forEmptyToks =
      some [some (.While (.Literal (.Boolean true))
        (.Print (.Literal (.Number (.finite 1)))))] := by
  constructor
  · refine parseResult_ok (fS 20) ?_
    refine run_parseGo 16 ?_
    refine run_bind_ite_false (fS 0) ?_ ?_
    · exact rfl
    refine run_tryCatch_ok _ (fS 20) ?_
    refine run_bind (some (Stmt.Block
        [some (.VarDecl iTok (some (.Literal (.Number (.finite 0))))),
         some (.While
           (.Binary (.Variable iTok) (tk .LessThanSign 1 "<")
             (.Literal (.Number (.finite 3))))
           (.Block
             [some (.Print (.Variable iTok)),
              some (.ExprStmt (.Assign iTok
                (.Binary (.Variable iTok) (tk .Plus 1 "+")
                  (.Literal (.Number (.finite 1))))))]))])) (fS 20) ?_ rfl
    refine run_declaration_ok 15 ?_
    refine run_bind_ite_false (fS 0) ?_ ?_
    · exact rfl
    refine run_bind (Stmt.Block
        [some (.VarDecl iTok (some (.Literal (.Number (.finite 0))))),
         some (.While
           (.Binary (.Variable iTok) (tk .LessThanSign 1 "<")
             (.Literal (.Number (.finite 3))))
           (.Block
             [some (.Print (.Variable iTok)),
              some (.ExprStmt (.Assign iTok
                (.Binary (.Variable iTok) (tk .Plus 1 "+")
                  (.Literal (.Number (.finite 1))))))]))]) (fS 20) ?_ rfl
    refine run_statement_ok 14 ?_
    refine run_bind_ite_true (fS 1) ?_ ?_
    · exact rfl
    refine run_forStatement_ok 13 ?_
    refine run_bind (tk .LeftParenthesis 1 "(") (fS 2) ?_ ?_
    · exact rfl
    refine run_bind_ite_false (fS 2) ?_ ?_
    · exact rfl
    refine run_bind_ite_true (fS 3) ?_ ?_
    · exact rfl
    refine run_bind (Stmt.VarDecl iTok (some (.Literal (.Number (.finite 0))))) (fS 7) ?_ ?_
    · exact rfl
    refine run_bind (some (Stmt.VarDecl iTok (some (.Literal (.Number (.finite 0)))))) (fS 7) ?_ ?_
    · exact rfl
    refine run_bind_ite_false (fS 7) ?_ ?_
    · exact rfl
    refine run_bind (Expr.Binary (.Variable iTok) (tk .LessThanSign 1 "<")
        (.Literal (.Number (.finite 3)))) (fS 10) ?_ ?_
    · exact rfl
    refine run_bind (some (Expr.Binary (.Variable iTok) (tk .LessThanSign 1 "<")
        (.Literal (.Number (.finite 3))))) (fS 10) ?_ ?_
    · exact rfl
    refine run_bind (tk .Semicolon 1 ";") (fS 11) ?_ ?_
    · exact rfl
    refine run_bind_ite_false (fS 11) ?_ ?_
    · exact rfl
    refine run_bind (Expr.Assign iTok (.Binary (.Variable iTok) (tk .Plus 1 "+")
        (.Literal (.Number (.finite 1))))) (fS 16) ?_ ?_
    · exact rfl
    refine run_bind (some (Expr.Assign iTok (.Binary (.Variable iTok) (tk .Plus 1 "+")
        (.Literal (.Number (.finite 1)))))) (fS 16) ?_ ?_
    · exact rfl
    refine run_bind (tk .RightParenthesis 1 ")") (fS 17) ?_ ?_
    · exact rfl
    refine run_bind (Stmt.Print (.Variable iTok)) (fS 20) ?_ ?_
    · exact rfl
    exact rfl
  · exact rfl

theorem noerr_bind {x : ParserM α} {k : α → ParserM β} (hx : NoErr x)
    (hk : ∀ a, NoErr (k a)) : NoErr (x >>= k) := by
  intro s
  show (pbind x k s).isErr = false
  unfold pbind
  cases hxs : x s with
  | ok a s' => exact hk a s'
  | err e s' =>
    have h := hx s
    rw [hxs] at h
    simp [PResult.isErr] at h
  | fuelOut s' => rfl

theorem noerr_pure (a : α) : NoErr (pure (f := ParserM) a) := fun _ => rfl

theorem noerr_tryCatch {x : ParserM α} {h : RuntimeError → ParserM α}
    (hh : ∀ e, NoErr (h e)) : NoErr (tryCatchRE x h) := by
  intro s
  unfold tryCatchRE
  cases x s with
  | ok a s' => rfl
  | err e s' => exact hh e s'
  | fuelOut s' => rfl

theorem noerr_peek : NoErr peek := by
  intro s
  unfold peek
  split <;> rfl

theorem noerr_previous : NoErr previous := by
  intro s
  unfold previous
  split <;> rfl

theorem noerr_isAtEnd : NoErr isAtEnd :=
  noerr_bind noerr_peek fun _ => noerr_pure _

theorem noerr_advance : NoErr advance := by
  refine noerr_bind noerr_isAtEnd fun e => ?_
  cases e with
  | true => simpa using noerr_previous
  | false => exact fun s => noerr_previous _

theorem noerr_raftError (line : Nat) (msg : String) :
    NoErr (raftError line msg) := fun _ => rfl

theorem noerr_stop : NoErr (stop : ParserM α) := fun _ => rfl

theorem noerr_syncLoopStep {ih : ParserM Unit} (hih : NoErr ih) :
    NoErr (syncLoopStep ih) := by
  unfold syncLoopStep
  refine noerr_bind noerr_isAtEnd fun e => ?_
  cases e with
  | true => exact noerr_pure _
  | false =>
    simp only [Bool.false_eq_true, if_false]
    refine noerr_bind noerr_previous fun pv => ?_
    by_cases hp : pv.type = .Semicolon
    · simp only [hp, if_pos rfl]; exact noerr_pure _
    · simp only [if_neg hp]
      refine noerr_bind noerr_peek fun t => ?_
      obtain ⟨ty, line, lex, lit⟩ := t
      cases ty <;>
        first
          | exact noerr_pure _
          | exact noerr_bind noerr_advance fun _ => hih

theorem noerr_syncLoop : ∀ f, NoErr (syncLoop f) := by
  intro f
  induction f with
  | zero => exact noerr_stop
  | succ f ih => exact noerr_syncLoopStep ih

theorem noerr_synchronize : NoErr synchronize :=
  noerr_bind noerr_advance fun _ s => noerr_syncLoop _ s

theorem noerr_parseGoStep {dec : ParserM (Option Stmt)}
    {ih : List (Option Stmt) → ParserM (List (Option Stmt))}
    (hih : ∀ acc, NoErr (ih acc)) (acc : List (Option Stmt)) :
    NoErr (parseGoStep dec ih acc) := by
  unfold parseGoStep
  refine noerr_bind noerr_isAtEnd fun e => ?_
  cases e with
  | true => exact noerr_pure _
  | false =>
    simp only [Bool.false_eq_true, if_false]
    refine noerr_tryCatch fun ex => ?_
    refine noerr_bind (noerr_raftError _ _) fun _ => ?_
    refine noerr_bind noerr_synchronize fun _ => ?_
    exact noerr_pure _

theorem noerr_parseGo : ∀ f acc, NoErr (parseGo f acc) := by
  intro f
  induction f with
  | zero => intro acc; exact noerr_stop
  | succ f ih => intro acc; exact noerr_parseGoStep ih acc


set_option maxHeartbeats 1000000 in
/-- C1: the parse operation never lets a parse error escape its boundary —
for every fuel and every starting state the outcome is never a thrown
error — and on a source holding two independent malformed statements ended
by `;` plus one well-formed statement it reports exactly the two
diagnostics and returns a statement list whose successfully built entries
are exactly the remaining well-formed statement (the slots of the two
failed statements hold the null statement `declaration` returned). -/
theorem c1_error_recovery :
    (∀ f s, (parse f s).isErr = false) ∧
    parseResult 16 twoErrToks =
      some [none, none, some (.Print (.Literal (.Number (.finite 1))))] ∧
    Option.map (List.filterMap id) (parseResult 16 twoErrToks) =
      some [.Print (.Literal (.Number (.finite 1)))] ∧
    parseDiags 16 twoErrToks =
      [(1, "Expect variable name"), (2, "Expect expression")] := by
  have H : parseGo 16 [] (initState twoErrToks) =
      .ok [none, none, some (.Print (.Literal (.Number (.finite 1))))]
        (pstate twoErrToks 7
          [(1, "Expect variable name"), (2, "Expect expression")]) := by
    refine run_parseGo 15 ?_
    refine run_bind_ite_false (pstate twoErrToks 0 []) ?_ ?_
    · exact rfl
    refine run_tryCatch_ok _ (pstate twoErrToks 7
      [(1, "Expect variable name"), (2, "Expect expression")]) ?_
    refine run_bind none (pstate twoErrToks 2 [(1, "Expect variable name")]) ?_ ?_
    · exact rfl
    refine run_parseGo 14 ?_
    refine run_bind_ite_false (pstate twoErrToks 2 [(1, "Expect variable name")]) ?_ ?_
    · exact rfl
    refine run_tryCatch_ok _ (pstate twoErrToks 7
      [(1, "Expect variable name"), (2, "Expect expression")]) ?_
    refine run_bind none (pstate twoErrToks 4
      [(1, "Expect variable name"), (2, "Expect expression")]) ?_ ?_
    · exact rfl
    refine run_parseGo 13 ?_
    refine run_bind_ite_false (pstate twoErrToks 4
      [(1, "Expect variable name"), (2, "Expect expression")]) ?_ ?_
    · exact rfl
    refine run_tryCatch_ok _ (pstate twoErrToks 7
      [(1, "Expect variable name"), (2, "Expect expression")]) ?_
    refine run_bind (some (Stmt.Print (.Literal (.Number (.finite 1)))))
      (pstate twoErrToks 7
        [(1, "Expect variable name"), (2, "Expect expression")]) ?_ ?_
    · exact rfl
    exact rfl
  refine ⟨fun f s => noerr_parseGo f [] s, parseResult_ok _ H, ?_, parseDiags_ok _ H⟩
  rw [parseResult_ok _ H]
  rfl

theorem StInv.nonempty {s : PState} (h : StInv s) : s.tokens ≠ [] := by
  intro hnil
  have := h.2.1
  rw [hnil] at this
  exact absurd this (by simp)

theorem Prog_of_le {s s₁ : PState} (h : Prog s) (htok : s₁.tokens = s.tokens)
    (hcur : s.current ≤ s₁.current) : Prog s₁ := by
  rcases h with h | h
  · exact Or.inl (lt_of_lt_of_le h hcur)
  · rcases Nat.eq_or_lt_of_le hcur with heq | hlt
    · refine Or.inr ?_
      unfold curType at h ⊢
      rw [htok, ← heq]
      exact h
    · exact Or.inl (Nat.lt_of_le_of_lt (Nat.zero_le _) hlt)

/-- If the cursor does not face the sentinel, it is strictly before the
sentinel's index. -/
theorem succ_lt_of_ne_eof {s : PState} (h : StInv s)
    (hne : curType s ≠ .EndOfFile) : s.current + 1 < s.tokens.length := by
  obtain ⟨-, hlt, hlast⟩ := h
  rcases Nat.lt_or_ge (s.current + 1) s.tokens.length with hgood | hbad
  · exact hgood
  · exfalso
    have hcur : s.current = s.tokens.length - 1 := by omega
    apply hne
    unfold curType
    rw [hcur]
    unfold lastEof at hlast
    simp only [Bool.and_eq_true, decide_eq_true_eq] at hlast
    exact hlast.2

theorem peek_spec {s : PState} (h : StInv s) :
    peek s = .ok (s.tokens.getD s.current dummyToken) s := by
  unfold peek
  rw [if_pos h.2.1]

theorem isAtEnd_spec {s : PState} (h : StInv s) :
    isAtEnd s = .ok (decide (curType s = .EndOfFile)) s := by
  unfold isAtEnd
  show pbind peek _ s = _
  unfold pbind
  rw [peek_spec h]
  rfl

theorem previous_spec {s : PState} (h0 : 0 < s.current)
    (hlt : s.current - 1 < s.tokens.length) :
    previous s = .ok (s.tokens.getD (s.current - 1) dummyToken) s := by
  unfold previous
  rw [if_pos ⟨h0, hlt⟩]

theorem advance_spec {s : PState} (h : StInv s) (hp : Prog s) :
    ∃ t s', advance s = .ok t s' ∧ StInv s' ∧ s'.tokens = s.tokens ∧
      s'.diags = s.diags ∧ s.current ≤ s'.current ∧ 1 ≤ s'.current ∧
      (curType s ≠ .EndOfFile → s'.current = s.current + 1) ∧
      (curType s = .EndOfFile → s' = s) := by
  have hae := isAtEnd_spec h
  by_cases he : curType s = .EndOfFile
  · have h0 : 0 < s.current := by
      rcases hp with h0 | hne
      · exact h0
      · exact absurd he hne
    have hprev := previous_spec h0 (Nat.lt_of_le_of_lt (Nat.sub_le _ _) h.2.1)
    refine ⟨s.tokens.getD (s.current - 1) dummyToken, s, ?_, h, rfl, rfl,
      Nat.le_refl _, h0, fun hne => absurd he hne, fun _ => rfl⟩
    show pbind isAtEnd _ s = _
    unfold pbind
    rw [hae, he]
    simpa using hprev
  · have hlt := succ_lt_of_ne_eof h he
    have hprev := @previous_spec { s with current := s.current + 1 }
      (Nat.succ_pos _) (by simpa using Nat.lt_of_succ_lt hlt)
    refine ⟨s.tokens.getD (s.current + 1 - 1) dummyToken,
      { s with current := s.current + 1 }, ?_,
      ⟨h.1, hlt, h.2.2⟩, rfl, rfl, Nat.le_succ _, Nat.succ_pos _,
      fun _ => rfl, fun heq => absurd heq he⟩
    show pbind isAtEnd _ s = _
    unfold pbind
    rw [hae, decide_eq_false he]
    simpa using hprev

theorem check_spec (t : TokenType) {s : PState} (h : StInv s) :
    check t s =
      .ok (if curType s = .EndOfFile then false else decide (curType s = t)) s := by
  show pbind isAtEnd _ s = _
  unfold pbind
  rw [isAtEnd_spec h]
  by_cases he : curType s = .EndOfFile
  · simp only [he, decide_True, if_true, if_pos rfl]
    rfl
  · simp only [decide_eq_false he, if_neg he]
    show pbind peek _ s = _
    unfold pbind
    rw [peek_spec h]
    rfl

theorem check_spec_true (t : TokenType) {s : PState} (h : StInv s)
    (he : curType s ≠ .EndOfFile) (ht : curType s = t) :
    check t s = .ok true s := by
  rw [check_spec t h, if_neg he]
  simp [ht]

theorem check_spec_false (t : TokenType) {s : PState} (h : StInv s)
    (hne : curType s = .EndOfFile ∨ curType s ≠ t) :
    check t s = .ok false s := by
  rw [check_spec t h]
  rcases hne with he | ht
  · rw [if_pos he]
  · by_cases he : curType s = .EndOfFile
    · rw [if_pos he]
    · rw [if_neg he]
      simp [ht]

theorem matchT_spec (l : List TokenType) {s : PState} (h : StInv s) :
    ∃ b s', matchT l s = .ok b s' ∧ StInv s' ∧ s'.tokens = s.tokens ∧
      s'.diags = s.diags ∧ s.current ≤ s'.current ∧
      (b = false → s' = s) ∧ (b = true → s'.current = s.current + 1) := by
  induction l with
  | nil =>
    exact ⟨false, s, rfl, h, rfl, rfl, Nat.le_refl _, fun _ => rfl,
      fun hb => absurd hb (by simp)⟩
  | cons t ts ih =>
    show ∃ b s', pbind (check t) _ s = _ ∧ _
    unfold pbind
    by_cases he : curType s = .EndOfFile
    · rw [check_spec_false t h (Or.inl he)]
      obtain ⟨b, s', hm, rest⟩ := ih
      exact ⟨b, s', by simpa using hm, rest⟩
    · by_cases ht : curType s = t
      · rw [check_spec_true t h he ht]
        obtain ⟨tok, s', hadv, hi, htok, hd, hc, h1, hplus, -⟩ :=
          advance_spec h (Or.inr he)
        refine ⟨true, s', ?_, hi, htok, hd, hc,
          fun hb => absurd hb (by simp), fun _ => hplus he⟩
        show pbind advance _ s = _
        unfold pbind
        rw [hadv]
        rfl
      · rw [check_spec_false t h (Or.inr ht)]
        obtain ⟨b, s', hm, rest⟩ := ih
        exact ⟨b, s', by simpa using hm, rest⟩

theorem consume_spec (t : TokenType) (m : String) {s : PState} (h : StInv s) :
    (∃ tok s', consume t m s = .ok tok s' ∧ StInv s' ∧ s'.tokens = s.tokens ∧
      s'.diags = s.diags ∧ s'.current = s.current + 1) ∨
    (∃ tok, consume t m s = .err ⟨tok, m⟩ s) := by
  by_cases he : curType s = .EndOfFile
  · refine Or.inr ⟨s.tokens.getD s.current dummyToken, ?_⟩
    show pbind (check t) _ s = _
    unfold pbind
    rw [check_spec_false t h (Or.inl he)]
    show pbind peek _ s = _
    unfold pbind
    rw [peek_spec h]
    rfl
  · by_cases ht : curType s = t
    · obtain ⟨tok, s', hadv, hi, htok, hd, hcur, h1, hplus, -⟩ :=
        advance_spec h (Or.inr he)
      refine Or.inl ⟨tok, s', ?_, hi, htok, hd, hplus he⟩
      show pbind (check t) _ s = _
      unfold pbind
      rw [check_spec_true t h he ht]
      exact hadv
    · refine Or.inr ⟨s.tokens.getD s.current dummyToken, ?_⟩
      show pbind (check t) _ s = _
      unfold pbind
      rw [check_spec_false t h (Or.inr ht)]
      show pbind peek _ s = _
      unfold pbind
      rw [peek_spec h]
      rfl

theorem raftError_spec (line : Nat) (msg : String) (s : PState) :
    raftError line msg s = .ok () { s with diags := s.diags ++ [(line, msg)] } :=
  rfl

theorem GoodRes_chain {s s₁ : PState} {r : PResult α} (htok : s₁.tokens = s.tokens)
    (hcur : s.current ≤ s₁.current) (h : GoodRes s₁ r) : GoodRes s r :=
  ⟨h.1, by rw [h.2.1, htok], Nat.le_trans hcur h.2.2⟩

theorem GoodRes_pure {s : PState} (h : StInv s) (a : α) :
    GoodRes s ((pure a : ParserM α) s) := ⟨h, rfl, Nat.le_refl _⟩

theorem GoodRes_stop {s : PState} (h : StInv s) :
    GoodRes s ((stop : ParserM α) s) := ⟨h, rfl, Nat.le_refl _⟩

theorem GoodRes_throw {s : PState} (h : StInv s) (t : Token) (msg : String) :
    GoodRes s ((throwRE t msg : ParserM α) s) := ⟨h, rfl, Nat.le_refl _⟩

theorem GoodRes_ok_facts {s s₁ : PState} {a : α} {r : PResult α}
    (hg : GoodRes s r) (he : r = .ok a s₁) :
    StInv s₁ ∧ s₁.tokens = s.tokens ∧ s.current ≤ s₁.current := by
  rw [he] at hg
  exact hg

theorem GoodRes_err_facts {s s₁ : PState} {e : RuntimeError} {r : PResult α}
    (hg : GoodRes s r) (he : r = .err e s₁) :
    StInv s₁ ∧ s₁.tokens = s.tokens ∧ s.current ≤ s₁.current := by
  rw [he] at hg
  exact hg

theorem GoodRes_bind {x : ParserM α} {k : α → ParserM β} {s : PState}
    (hx : GoodRes s (x s))
    (hk : ∀ a s₁, x s = .ok a s₁ → GoodRes s₁ (k a s₁)) :
    GoodRes s ((x >>= k) s) := by
  show GoodRes s (pbind x k s)
  unfold pbind
  cases hxs : x s with
  | ok a s₁ =>
    obtain ⟨hi, htok, hcur⟩ := GoodRes_ok_facts hx hxs
    exact GoodRes_chain htok hcur (hk a s₁ hxs)
  | err e s₁ =>
    rw [hxs] at hx
    exact hx
  | fuelOut s₁ =>
    rw [hxs] at hx
    exact hx

theorem GoodRes_tryCatch {x : ParserM α} {hh : RuntimeError → ParserM α}
    {s : PState} (hx : GoodRes s (x s))
    (hhh : ∀ e s₁, x s = .err e s₁ → GoodRes s₁ (hh e s₁)) :
    GoodRes s (tryCatchRE x hh s) := by
  unfold tryCatchRE
  cases hxs : x s with
  | ok a s₁ =>
    rw [hxs] at hx
    exact hx
  | err e s₁ =>
    obtain ⟨hi, htok, hcur⟩ := GoodRes_err_facts hx hxs
    exact GoodRes_chain htok hcur (hhh e s₁ hxs)
  | fuelOut s₁ =>
    rw [hxs] at hx
    exact hx

theorem isAtEnd_spec_true {s : PState} (h : StInv s)
    (he : curType s = .EndOfFile) : isAtEnd s = .ok true s := by
  rw [isAtEnd_spec h]
  simp [he]

theorem isAtEnd_spec_false {s : PState} (h : StInv s)
    (he : curType s ≠ .EndOfFile) : isAtEnd s = .ok false s := by
  rw [isAtEnd_spec h]
  simp [he]

theorem syncLoop_good : ∀ (n : Nat) {s : PState}, StInv s → 1 ≤ s.current →
    GoodRes s (syncLoop n s) := by
  intro n
  induction n with
  | zero => intro s h h1; exact GoodRes_stop h
  | succ n ih =>
    intro s h h1
    show GoodRes s (syncLoopStep (syncLoop n) s)
    unfold syncLoopStep
    by_cases he : curType s = .EndOfFile
    · refine GoodRes_bind ?_ ?_
      · rw [isAtEnd_spec_true h he]
        exact ⟨h, rfl, Nat.le_refl _⟩
      · intro e s₁ hes
        rw [isAtEnd_spec_true h he] at hes
        injection hes with h1e h2e
        subst h1e
        subst h2e
        exact GoodRes_pure h ()
    · refine GoodRes_bind ?_ ?_
      · rw [isAtEnd_spec_false h he]
        exact ⟨h, rfl, Nat.le_refl _⟩
      · intro e s₁ hes
        rw [isAtEnd_spec_false h he] at hes
        injection hes with h1e h2e
        subst h1e
        subst h2e
        have hprevlt : s.current - 1 < s.tokens.length :=
          Nat.lt_of_le_of_lt (Nat.sub_le _ _) h.2.1
        refine GoodRes_bind ?_ ?_
        · rw [previous_spec h1 hprevlt]
          exact ⟨h, rfl, Nat.le_refl _⟩
        · intro pv s₁ hes2
          rw [previous_spec h1 hprevlt] at hes2
          injection hes2 with h1p h2p
          subst h1p
          subst h2p
          have hdefault : GoodRes s ((do
              let _ ← advance
              syncLoop n) s) := by
            obtain ⟨tok, s', hadv, hi, htok, hd, hc, h1', hplus, heof⟩ :=
              advance_spec h (Or.inl h1)
            refine GoodRes_bind ?_ ?_
            · rw [hadv]
              exact ⟨hi, htok, hc⟩
            · intro a s₂ hes3
              rw [hadv] at hes3
              injection hes3 with h1a h2a
              subst h1a
              subst h2a
              exact ih hi h1'
          by_cases hsemi : (s.tokens.getD (s.current - 1) dummyToken).type = .Semicolon
          · rw [if_pos hsemi]
            exact GoodRes_pure h ()
          · rw [if_neg hsemi]
            refine GoodRes_bind ?_ ?_
            · rw [peek_spec h]
              exact ⟨h, rfl, Nat.le_refl _⟩
            · intro tok s₁ hes3
              rw [peek_spec h] at hes3
              injection hes3 with h1t h2t
              subst h1t
              subst h2t
              cases hq : (s.tokens.getD s.current dummyToken).type <;>
                first
                  | exact GoodRes_pure h ()
                  | exact hdefault

theorem synchronize_good {s : PState} (h : StInv s) (hp : Prog s) :
    GoodRes s (synchronize s) := by
  obtain ⟨tok, s', hadv, hi, htok, hd, hc, h1, hplus, heof⟩ := advance_spec h hp
  unfold synchronize
  refine GoodRes_bind ?_ ?_
  · rw [hadv]
    exact ⟨hi, htok, hc⟩
  · intro a s₁ hes
    rw [hadv] at hes
    injection hes with h1a h2a
    subst h1a
    subst h2a
    exact syncLoop_good _ hi h1

theorem GoodRule_stop : GoodRule (stop : ParserM α) := fun _ h => GoodRes_stop h

theorem GoodRule_bind {x : ParserM α} {k : α → ParserM β} (hx : GoodRule x)
    (hk : ∀ a, GoodRule (k a)) : GoodRule (x >>= k) := fun s h =>
  GoodRes_bind (hx s h)
    (fun a s₁ hxs => hk a s₁ (GoodRes_ok_facts (hx s h) hxs).1)

/-- Chain a `match`-test: the then branch may additionally assume the
cursor has moved (it consumed the matched token). -/
theorem GoodRule_matchT {l : List TokenType} {kt kf : ParserM α}
    (hkt : ∀ s, StInv s → 1 ≤ s.current → GoodRes s (kt s))
    (hkf : GoodRule kf) :
    GoodRule (do
      let m ← matchT l
      if m then kt else kf) := by
  intro s h
  obtain ⟨b, s', hm, hi, htok, hd, hc, hf, htr⟩ := matchT_spec l h
  refine GoodRes_bind ?_ ?_
  · rw [hm]
    exact ⟨hi, htok, hc⟩
  · intro a s₁ hxs
    rw [hm] at hxs
    injection hxs with h1 h2
    subst h1
    subst h2
    cases b with
    | true =>
      have hcur := htr rfl
      exact hkt _ hi (by omega)
    | false =>
      have hseq := hf rfl
      subst hseq
      exact hkf _ hi

/-- Chain the `previous` read that follows every successful `match`. -/
theorem GoodRes_prev_seq {s : PState} (h : StInv s) (h1 : 1 ≤ s.current)
    {k : Token → ParserM α}
    (hk : GoodRes s (k (s.tokens.getD (s.current - 1) dummyToken) s)) :
    GoodRes s ((previous >>= k) s) := by
  have hlt : s.current - 1 < s.tokens.length :=
    Nat.lt_of_le_of_lt (Nat.sub_le _ _) h.2.1
  refine GoodRes_bind ?_ ?_
  · rw [previous_spec h1 hlt]
    exact ⟨h, rfl, Nat.le_refl _⟩
  · intro a s₁ hes
    rw [previous_spec h1 hlt] at hes
    injection hes with h1a h2a
    subst h1a
    subst h2a
    exact hk

/-- Chain a `consume`: on success the continuation sees the cursor one
step further; a throw leaves the state as it was. -/
theorem GoodRes_consume_seq {s : PState} (h : StInv s) (t : TokenType)
    (m : String) {k : Token → ParserM α}
    (hk : ∀ tok s₁, StInv s₁ → s₁.tokens = s.tokens → s₁.diags = s.diags →
      s₁.current = s.current + 1 → GoodRes s₁ (k tok s₁)) :
    GoodRes s ((consume t m >>= k) s) := by
  rcases consume_spec t m h with ⟨tok, s₁, hok, hi, htok, hd, hp1⟩ | ⟨tok, herr⟩
  · refine GoodRes_bind ?_ ?_
    · rw [hok]
      refine ⟨hi, htok, ?_⟩
      show s.current ≤ s₁.current
      omega
    · intro a s₂ hes
      rw [hok] at hes
      injection hes with h1a h2a
      subst h1a
      subst h2a
      exact hk tok s₁ hi htok hd hp1
  · show GoodRes s (pbind _ _ s)
    unfold pbind
    rw [herr]
    exact ⟨h, rfl, Nat.le_refl _⟩

/-- Chain a diagnostics report, which touches only the diagnostics list. -/
theorem GoodRes_raft_seq {s : PState} (h : StInv s) (line : Nat) (msg : String)
    {k : Unit → ParserM α}
    (hk : ∀ s₁, StInv s₁ → s₁.tokens = s.tokens → s₁.current = s.current →
      GoodRes s₁ (k () s₁)) :
    GoodRes s ((raftError line msg >>= k) s) := by
  refine GoodRes_bind ?_ ?_
  · rw [raftError_spec]
    exact ⟨⟨h.1, h.2.1, h.2.2⟩, rfl, Nat.le_refl _⟩
  · intro a s₁ hes
    rw [raftError_spec] at hes
    injection hes with h1a h2a
    subst h2a
    exact hk _ ⟨h.1, h.2.1, h.2.2⟩ rfl rfl

theorem GoodRes_check_seq {s : PState} (h : StInv s) (t : TokenType)
    {k : Bool → ParserM α} (hk : ∀ b, GoodRes s (k b s)) :
    GoodRes s ((check t >>= k) s) := by
  refine GoodRes_bind ?_ ?_
  · rw [check_spec t h]
    exact ⟨h, rfl, Nat.le_refl _⟩
  · intro b s₁ hes
    rw [check_spec t h] at hes
    injection hes with h1 h2
    subst h2
    exact hk b

theorem GoodRes_peek_throw {s : PState} (h : StInv s) (m : String) :
    GoodRes s ((do
      let t ← peek
      throwRE t m : ParserM α) s) := by
  refine GoodRes_bind ?_ ?_
  · rw [peek_spec h]
    exact ⟨h, rfl, Nat.le_refl _⟩
  · intro t s₁ hes
    rw [peek_spec h] at hes
    injection hes with h1 h2
    subst h1
    subst h2
    exact GoodRes_throw h _ _

theorem rulesBase_good : RulesGood rulesBase :=
  ⟨GoodRule_stop, GoodRule_stop, GoodRule_stop, fun _ => GoodRule_stop,
   GoodRule_stop, fun _ => GoodRule_stop, GoodRule_stop, fun _ => GoodRule_stop,
   GoodRule_stop, fun _ => GoodRule_stop, GoodRule_stop, fun _ => GoodRule_stop,
   GoodRule_stop, fun _ => GoodRule_stop, GoodRule_stop, GoodRule_stop,
   fun s h _ => GoodRes_stop h, GoodRule_stop, GoodRule_stop, GoodRule_stop,
   GoodRule_stop, GoodRule_stop, GoodRule_stop, GoodRule_stop,
   fun _ => GoodRule_stop, GoodRule_stop⟩

theorem GoodRes_pure_seq {s : PState} {a : α} {k : α → ParserM β}
    (hk : GoodRes s (k a s)) : GoodRes s (((pure a : ParserM α) >>= k) s) := hk

theorem rulesStep_good {p : RuleSet} (hp : RulesGood p) :
    RulesGood (rulesStep p) := by
  obtain ⟨hexpr, hassign, hor, horl, hand, handl, heq, heql, hcomp, hcompl,
    hterm, hterml, hfac, hfacl, hun, hprim, hdecl, hvar, hstmt, hfor, hif,
    hprint, hwhile, hblock, hblockl, hexprstmt⟩ := hp
  refine ⟨?_, ?_, ?_, ?_, ?_, ?_, ?_, ?_, ?_, ?_, ?_, ?_, ?_, ?_, ?_, ?_,
    ?_, ?_, ?_, ?_, ?_, ?_, ?_, ?_, ?_, ?_⟩
  · -- expression
    exact hassign
  · -- assignment
    refine GoodRule_bind hor ?_
    intro expr
    refine GoodRule_matchT ?_ (fun s h => GoodRes_pure h expr)
    intro s h h1
    refine GoodRes_prev_seq h h1 ?_
    refine GoodRes_bind (hassign s h) ?_
    intro value s₂ hxs
    have hf := (GoodRes_ok_facts (hassign s h) hxs).1
    cases expr <;>
      first
        | exact GoodRes_pure hf _
        | exact GoodRes_raft_seq hf _ _ fun s₃ hi3 _ _ => GoodRes_pure hi3 _
  · -- logicOr
    exact GoodRule_bind hand horl
  · -- logicOrLoop
    intro e
    refine GoodRule_matchT ?_ (fun s h => GoodRes_pure h e)
    intro s h h1
    refine GoodRes_prev_seq h h1 ?_
    refine GoodRes_bind (hand s h) ?_
    intro r s₂ hxs
    exact horl _ s₂ (GoodRes_ok_facts (hand s h) hxs).1
  · -- logicAnd
    exact GoodRule_bind heq handl
  · -- logicAndLoop
    intro e
    refine GoodRule_matchT ?_ (fun s h => GoodRes_pure h e)
    intro s h h1
    refine GoodRes_prev_seq h h1 ?_
    refine GoodRes_bind (heq s h) ?_
    intro r s₂ hxs
    exact handl _ s₂ (GoodRes_ok_facts (heq s h) hxs).1
  · -- equality
    exact GoodRule_bind hcomp heql
  · -- equalityLoop
    intro e
    refine GoodRule_matchT ?_ (fun s h => GoodRes_pure h e)
    intro s h h1
    refine GoodRes_prev_seq h h1 ?_
    refine GoodRes_bind (hcomp s h) ?_
    intro r s₂ hxs
    exact heql _ s₂ (GoodRes_ok_facts (hcomp s h) hxs).1
  · -- comparison
    exact GoodRule_bind hterm hcompl
  · -- comparisonLoop
    intro e
    refine GoodRule_matchT ?_ (fun s h => GoodRes_pure h e)
    intro s h h1
    refine GoodRes_prev_seq h h1 ?_
    refine GoodRes_bind (hterm s h) ?_
    intro r s₂ hxs
    exact hcompl _ s₂ (GoodRes_ok_facts (hterm s h) hxs).1
  · -- term
    exact GoodRule_bind hfac hterml
  · -- termLoop
    intro e
    refine GoodRule_matchT ?_ (fun s h => GoodRes_pure h e)
    intro s h h1
    refine GoodRes_prev_seq h h1 ?_
    refine GoodRes_bind (hfac s h) ?_
    intro r s₂ hxs
    exact hterml _ s₂ (GoodRes_ok_facts (hfac s h) hxs).1
  · -- factor
    exact GoodRule_bind hun hfacl
  · -- factorLoop
    intro e
    refine GoodRule_matchT ?_ (fun s h => GoodRes_pure h e)
    intro s h h1
    refine GoodRes_prev_seq h h1 ?_
    refine GoodRes_bind (hun s h) ?_
    intro r s₂ hxs
    exact hfacl _ s₂ (GoodRes_ok_facts (hun s h) hxs).1
  · -- unary
    refine GoodRule_matchT ?_ hprim
    intro s h h1
    refine GoodRes_prev_seq h h1 ?_
    refine GoodRes_bind (hun s h) ?_
    intro r s₂ hxs
    exact GoodRes_pure (GoodRes_ok_facts (hun s h) hxs).1 _
  · -- primary
    refine GoodRule_matchT (fun s h _ => GoodRes_pure h _) ?_
    refine GoodRule_matchT (fun s h _ => GoodRes_pure h _) ?_
    refine GoodRule_matchT (fun s h _ => GoodRes_pure h _) ?_
    refine GoodRule_matchT
      (fun s h h1 => GoodRes_prev_seq h h1 (GoodRes_pure h _)) ?_
    refine GoodRule_matchT
      (fun s h h1 => GoodRes_prev_seq h h1 (GoodRes_pure h _)) ?_
    refine GoodRule_matchT ?_ ?_
    · intro s h h1
      refine GoodRes_bind (hexpr s h) ?_
      intro e s₂ hxs
      refine GoodRes_consume_seq (GoodRes_ok_facts (hexpr s h) hxs).1 _ _ ?_
      intro tok s₃ hi3 _ _ _
      exact GoodRes_pure hi3 _
    · intro s h
      exact GoodRes_peek_throw h _
  · -- declaration
    intro s h hpr
    have hX : GoodRes s ((do
        let m ← matchT [TokenType.Var]
        if m then do
          let st ← p.varDeclaration
          pure (some st)
        else do
          let st ← p.statement
          pure (some st)) s) := by
      refine GoodRule_matchT ?_ ?_ s h
      · intro s' h' _
        refine GoodRes_bind (hvar s' h') ?_
        intro st s₂ hxs
        exact GoodRes_pure (GoodRes_ok_facts (hvar s' h') hxs).1 _
      · refine GoodRule_bind hstmt ?_
        intro st s' h'
        exact GoodRes_pure h' _
    refine GoodRes_tryCatch hX ?_
    intro e s₁ herr
    have hf := GoodRes_err_facts hX herr
    refine GoodRes_raft_seq hf.1 _ _ ?_
    intro s₂ hi2 htok2 hcur2
    have hp₂ : Prog s₂ :=
      Prog_of_le (Prog_of_le hpr hf.2.1 hf.2.2) htok2 (Nat.le_of_eq hcur2.symm)
    refine GoodRes_bind (synchronize_good hi2 hp₂) ?_
    intro a s₃ hxs
    exact GoodRes_pure (GoodRes_ok_facts (synchronize_good hi2 hp₂) hxs).1 _
  · -- varDeclaration
    intro s h
    refine GoodRes_consume_seq h _ _ ?_
    intro name s₁ hi1 _ _ _
    refine GoodRule_matchT ?_ ?_ s₁ hi1
    · intro s₂ hi2 _
      refine GoodRes_bind (hexpr s₂ hi2) ?_
      intro e s₃ hxs
      refine GoodRes_pure_seq ?_
      refine GoodRes_consume_seq (GoodRes_ok_facts (hexpr s₂ hi2) hxs).1 _ _ ?_
      intro tok s₄ hi4 _ _ _
      exact GoodRes_pure hi4 _
    · intro s₂ hi2
      refine GoodRes_pure_seq ?_
      refine GoodRes_consume_seq hi2 _ _ ?_
      intro tok s₃ hi3 _ _ _
      exact GoodRes_pure hi3 _
  · -- statement
    refine GoodRule_matchT (fun s h _ => hfor s h) ?_
    refine GoodRule_matchT (fun s h _ => hif s h) ?_
    refine GoodRule_matchT (fun s h _ => hprint s h) ?_
    refine GoodRule_matchT (fun s h _ => hwhile s h) ?_
    refine GoodRule_matchT ?_ hexprstmt
    intro s h _
    refine GoodRes_bind (hblock s h) ?_
    intro stmts s₂ hxs
    exact GoodRes_pure (GoodRes_ok_facts (hblock s h) hxs).1 _
  · -- forStatement
    have hInc : ∀ (ini : Option Stmt) (cond : Option Expr) (inc : Option Expr),
        GoodRule (do
          let _ ← consume .RightParenthesis "Expect ')' after for clauses"
          let body ← p.statement
          let body1 := match inc with
            | some i => Stmt.Block [some body, some (Stmt.ExprStmt i)]
            | none => body
          let cond2 := match cond with
            | some c => c
            | none => Expr.Literal (.Boolean true)
          let body2 := Stmt.While cond2 body1
          match ini with
          | some i => pure (Stmt.Block [some i, some body2])
          | none => pure body2) := by
      intro ini cond inc s h
      refine GoodRes_consume_seq h _ _ ?_
      intro tok s₁ hi1 _ _ _
      refine GoodRes_bind (hstmt s₁ hi1) ?_
      intro body s₂ hxs
      have hf := (GoodRes_ok_facts (hstmt s₁ hi1) hxs).1
      cases ini <;> exact GoodRes_pure hf _
    have hCond : ∀ (ini : Option Stmt) (cond : Option Expr), GoodRule (do
          let _ ← consume .Semicolon "Expect ';' after loop condition"
          let cParen ← check .RightParenthesis
          let increment ← if cParen then
              pure (none : Option Expr)
            else do
              let e ← p.expression
              pure (some e)
          let _ ← consume .RightParenthesis "Expect ')' after for clauses"
          let body ← p.statement
          let body1 := match increment with
            | some i => Stmt.Block [some body, some (Stmt.ExprStmt i)]
            | none => body
          let cond2 := match cond with
            | some c => c
            | none => Expr.Literal (.Boolean true)
          let body2 := Stmt.While cond2 body1
          match ini with
          | some i => pure (Stmt.Block [some i, some body2])
          | none => pure body2) := by
      intro ini cond s h
      refine GoodRes_consume_seq h _ _ ?_
      intro tok s₁ hi1 _ _ _
      refine GoodRes_check_seq hi1 _ ?_
      intro b
      cases b
      · refine GoodRes_bind (hexpr s₁ hi1) ?_
        intro e s₂ hxs
        refine GoodRes_pure_seq ?_
        exact hInc ini cond (some e) s₂ (GoodRes_ok_facts (hexpr s₁ hi1) hxs).1
      · refine GoodRes_pure_seq ?_
        exact hInc ini cond none s₁ hi1
    have hInit : ∀ (ini : Option Stmt), GoodRule (do
          let cSemi ← check .Semicolon
          let condition ← if cSemi then
              pure (none : Option Expr)
            else do
              let e ← p.expression
              pure (some e)
          let _ ← consume .Semicolon "Expect ';' after loop condition"
          let cParen ← check .RightParenthesis
          let increment ← if cParen then
              pure (none : Option Expr)
            else do
              let e ← p.expression
              pure (some e)
          let _ ← consume .RightParenthesis "Expect ')' after for clauses"
          let body ← p.statement
          let body1 := match increment with
            | some i => Stmt.Block [some body, some (Stmt.ExprStmt i)]
            | none => body
          let cond2 := match condition with
            | some c => c
            | none => Expr.Literal (.Boolean true)
          let body2 := Stmt.While cond2 body1
          match ini with
          | some i => pure (Stmt.Block [some i, some body2])
          | none => pure body2) := by
      intro ini s h
      refine GoodRes_check_seq h _ ?_
      intro b
      cases b
      · refine GoodRes_bind (hexpr s h) ?_
        intro e s₁ hxs
        refine GoodRes_pure_seq ?_
        exact hCond ini (some e) s₁ (GoodRes_ok_facts (hexpr s h) hxs).1
      · refine GoodRes_pure_seq ?_
        exact hCond ini none s h
    intro s h
    refine GoodRes_consume_seq h _ _ ?_
    intro tok s₁ hi1 _ _ _
    refine GoodRule_matchT ?_ ?_ s₁ hi1
    · intro s₂ hi2 _
      refine GoodRes_pure_seq ?_
      exact hInit none s₂ hi2
    · refine GoodRule_matchT ?_ ?_
      · intro s₂ hi2 _
        refine GoodRes_bind (hvar s₂ hi2) ?_
        intro st s₃ hxs
        refine GoodRes_pure_seq ?_
        exact hInit (some st) s₃ (GoodRes_ok_facts (hvar s₂ hi2) hxs).1
      · intro s₂ hi2
        refine GoodRes_bind (hexprstmt s₂ hi2) ?_
        intro st s₃ hxs
        refine GoodRes_pure_seq ?_
        exact hInit (some st) s₃ (GoodRes_ok_facts (hexprstmt s₂ hi2) hxs).1
  · -- ifStatement
    intro s h
    refine GoodRes_consume_seq h _ _ ?_
    intro t1 s₁ hi1 _ _ _
    refine GoodRes_bind (hexpr s₁ hi1) ?_
    intro condition s₂ hx2
    refine GoodRes_consume_seq (GoodRes_ok_facts (hexpr s₁ hi1) hx2).1 _ _ ?_
    intro t2 s₃ hi3 _ _ _
    refine GoodRes_bind (hstmt s₃ hi3) ?_
    intro thenB s₄ hx4
    refine GoodRule_matchT ?_ ?_ s₄ (GoodRes_ok_facts (hstmt s₃ hi3) hx4).1
    · intro s₅ hi5 _
      refine GoodRes_bind (hstmt s₅ hi5) ?_
      intro elseB s₆ hx6
      refine GoodRes_pure_seq ?_
      exact GoodRes_pure (GoodRes_ok_facts (hstmt s₅ hi5) hx6).1 _
    · intro s₅ hi5
      refine GoodRes_pure_seq ?_
      exact GoodRes_pure hi5 _
  · -- printStatement
    intro s h
    refine GoodRes_bind (hexpr s h) ?_
    intro v s₁ hx
    refine GoodRes_consume_seq (GoodRes_ok_facts (hexpr s h) hx).1 _ _ ?_
    intro tok s₂ hi2 _ _ _
    exact GoodRes_pure hi2 _
  · -- whileStatement
    intro s h
    refine GoodRes_consume_seq h _ _ ?_
    intro t1 s₁ hi1 _ _ _
    refine GoodRes_bind (hexpr s₁ hi1) ?_
    intro condition s₂ hx2
    refine GoodRes_consume_seq (GoodRes_ok_facts (hexpr s₁ hi1) hx2).1 _ _ ?_
    intro t2 s₃ hi3 _ _ _
    refine GoodRes_bind (hstmt s₃ hi3) ?_
    intro body s₄ hx4
    exact GoodRes_pure (GoodRes_ok_facts (hstmt s₃ hi3) hx4).1 _
  · -- blockStmts
    exact hblockl []
  · -- blockLoop
    intro acc s h
    by_cases he : curType s = .EndOfFile
    · refine GoodRes_check_seq h _ ?_
      intro b
      cases b
      · refine GoodRes_bind ?_ ?_
        · rw [isAtEnd_spec_true h he]
          exact ⟨h, rfl, Nat.le_refl _⟩
        · intro e s₁ hes
          rw [isAtEnd_spec_true h he] at hes
          injection hes with h1 h2
          subst h1
          subst h2
          refine GoodRes_consume_seq h _ _ ?_
          intro tok s₂ hi2 _ _ _
          exact GoodRes_pure hi2 _
      · refine GoodRes_consume_seq h _ _ ?_
        intro tok s₁ hi1 _ _ _
        exact GoodRes_pure hi1 _
    · refine GoodRes_check_seq h _ ?_
      intro b
      cases b
      · refine GoodRes_bind ?_ ?_
        · rw [isAtEnd_spec_false h he]
          exact ⟨h, rfl, Nat.le_refl _⟩
        · intro e s₁ hes
          rw [isAtEnd_spec_false h he] at hes
          injection hes with h1 h2
          subst h1
          subst h2
          refine GoodRes_bind (hdecl s h (Or.inr he)) ?_
          intro d s₂ hx2
          exact hblockl _ s₂ (GoodRes_ok_facts (hdecl s h (Or.inr he)) hx2).1
      · refine GoodRes_consume_seq h _ _ ?_
        intro tok s₁ hi1 _ _ _
        exact GoodRes_pure hi1 _
  · -- expressionStatement
    intro s h
    refine GoodRes_bind (hexpr s h) ?_
    intro expr s₁ hx
    refine GoodRes_consume_seq (GoodRes_ok_facts (hexpr s h) hx).1 _ _ ?_
    intro tok s₂ hi2 _ _ _
    exact GoodRes_pure hi2 _

theorem rulesGood : ∀ f, RulesGood (rules f) := by
  intro f
  induction f with
  | zero => exact rulesBase_good
  | succ f ih => exact rulesStep_good ih

theorem parseGo_good : ∀ f acc, GoodRule (parseGo f acc) := by
  intro f
  induction f with
  | zero => intro acc; exact GoodRule_stop
  | succ f ih =>
    intro acc s h
    show GoodRes s (parseGoStep (declaration f) (parseGo f) acc s)
    unfold parseGoStep
    by_cases he : curType s = .EndOfFile
    · refine GoodRes_bind ?_ ?_
      · rw [isAtEnd_spec_true h he]
        exact ⟨h, rfl, Nat.le_refl _⟩
      · intro e s₁ hes
        rw [isAtEnd_spec_true h he] at hes
        injection hes with h1 h2
        subst h1
        subst h2
        exact GoodRes_pure h _
    · refine GoodRes_bind ?_ ?_
      · rw [isAtEnd_spec_false h he]
        exact ⟨h, rfl, Nat.le_refl _⟩
      · intro e s₁ hes
        rw [isAtEnd_spec_false h he] at hes
        injection hes with h1 h2
        subst h1
        subst h2
        obtain ⟨-, -, -, -, -, -, -, -, -, -, -, -, -, -, -, -, hdecl,
          -, -, -, -, -, -, -, -, -⟩ := rulesGood f
        have hX : GoodRes s ((do
            let d ← declaration f
            parseGo f (acc ++ [d])) s) := by
          refine GoodRes_bind (hdecl s h (Or.inr he)) ?_
          intro d s₂ hx2
          exact ih _ s₂ (GoodRes_ok_facts (hdecl s h (Or.inr he)) hx2).1
        refine GoodRes_tryCatch hX ?_
        intro ex s₂ herr
        have hf := GoodRes_err_facts hX herr
        refine GoodRes_raft_seq hf.1 _ _ ?_
        intro s₃ hi3 htok3 hcur3
        have hp₃ : Prog s₃ :=
          Prog_of_le (Prog_of_le (Or.inr he) hf.2.1 hf.2.2) htok3
            (Nat.le_of_eq hcur3.symm)
        refine GoodRes_bind (synchronize_good hi3 hp₃) ?_
        intro a s₄ hx4
        exact GoodRes_pure (GoodRes_ok_facts (synchronize_good hi3 hp₃) hx4).1 _

/-- C10: on a token sequence terminated by the end-of-input sentinel, the
cursor never moves past the sentinel's index: `advance` leaves the cursor in
place once the sentinel is under it (returning `previous` as always), and a
whole parse from the start state never records an out-of-bounds token
access — every `peek` and `previous` it performed read a valid index — and
ends with the cursor within the sequence (the proof maintains the invariant
`StInv` across every operation of the parse). -/
theorem c10_cursor_in_bounds :
    (∀ s, StInv s → curType s = .EndOfFile → 0 < s.current →
      advance s = .ok (s.tokens.getD (s.current - 1) dummyToken) s) ∧
    (∀ f ts, lastEof ts = true →
      (parse f (initState ts)).outState.oob = false ∧
      (parse f (initState ts)).outState.current < ts.length) := by
  constructor
  · intro s h he h0
    show pbind isAtEnd _ s = _
    unfold pbind
    rw [isAtEnd_spec_true h he]
    exact previous_spec h0 (Nat.lt_of_le_of_lt (Nat.sub_le _ _) h.2.1)
  · intro f ts hts
    have hne : ts ≠ [] := by
      intro hnil
      rw [hnil] at hts
      simp [lastEof] at hts
    have h0 : StInv (initState ts) := ⟨rfl, List.length_pos.mpr hne, hts⟩
    have hg := parseGo_good f [] (initState ts) h0
    refine ⟨hg.1.1, ?_⟩
    have h2 := hg.1.2.1
    rw [hg.2.1] at h2
    exact h2

/-- Witness for C10 at concrete inputs: `advance` on a cursor already at
the sentinel, and a parse of a sentinel-only sequence. -/
theorem c10_cursor_in_bounds_witness :
    (StInv (pstate [tk .Var 1 "var", tk .EndOfFile 1 ""] 1 []) ∧
      advance (pstate [tk .Var 1 "var", tk .EndOfFile 1 ""] 1 []) =
        .ok (tk .Var 1 "var") (pstate [tk .Var 1 "var", tk .EndOfFile 1 ""] 1 [])) ∧
    (lastEof [tk .EndOfFile 1 ""] = true ∧
      (parse 3 (initState [tk .EndOfFile 1 ""])).outState.oob = false ∧
      (parse 3 (initState [tk .EndOfFile 1 ""])).outState.current < 1) :=
  ⟨⟨⟨rfl, by decide, by decide⟩,
    c10_cursor_in_bounds.1 _ ⟨rfl, by decide, by decide⟩ (by decide) (by decide)⟩,
   ⟨by decide,
    c10_cursor_in_bounds.2 3 [tk .EndOfFile 1 ""] (by decide)⟩⟩
